import Mathlib

/-!
Verification of `djbdns2bind.py`.

A shallow embedding of the tinydns-to-BIND9 zone translator in
`src/djbdns2bind.py`, together with theorems settling the specification
claims about it.

Modelling conventions:
* Python `str.split(sep)` for a one-character separator is `splitOnChar`;
  Python `str.splitlines()` is `splitlines` (covering the newline
  terminators `\n`, `\r\n` and `\r`).
* Python `s[1:]` is `strTail`, and the one-character slice `s[:1]`
  (compared against one-character register markers) is modelled as
  `firstChar : String → Option Char`, with `none` standing for the
  empty slice of an empty string.
* A Python value that may be `None` or a string is `Option String`;
  `str(x)` applied to such a field is `fmtOpt` (Python prints `None` as
  the text `None`).
* The mutable dictionary `parsedContents` is the structure
  `ParsedContents`: a key that may be absent is an `Option` field
  (`none` = key absent).  The translator state (`self.domain`,
  `self.ttl`, `self.parsedContents`) is `TState`.
* A run of `Translator.parse` either finishes (`Except.ok`) or aborts:
  `ParseError.invalidDomain` models the `sys.exit(2)` on an invalid SOA
  domain and `ParseError.indexError` models a Python `IndexError` from
  indexing a missing colon field.  `self.ttl` can be the Python int
  `3600` (the fallback) or a raw string; both print identically, so the
  fallback is stored as the string `"3600"`.
* `Translator.write` prints lines until it either finishes or hits a
  `KeyError` on a missing dictionary key; it is modelled as a function
  returning the list of lines printed so far together with an optional
  `WriteError` naming the missing key.
-/

namespace Djbdns2bind

/-- Helper for `splitOnChar`: walks the characters, accumulating the
current field in reverse. -/
def splitOnCharAux (sep : Char) : List Char → List Char → List String
  | [], acc => [String.mk acc.reverse]
  | c :: rest, acc =>
    if c = sep then String.mk acc.reverse :: splitOnCharAux sep rest []
    else splitOnCharAux sep rest (c :: acc)

/-- Python `s.split(sep)` for a one-character separator `sep`:
always returns at least one (possibly empty) field. -/
def splitOnChar (sep : Char) (s : String) : List String :=
  splitOnCharAux sep s.data []

/-- Helper for `splitlines`. -/
def splitlinesAux : List Char → List Char → List String
  | [], [] => []
  | [], acc => [String.mk acc.reverse]
  | '\r' :: '\n' :: rest, acc => String.mk acc.reverse :: splitlinesAux rest []
  | '\n' :: rest, acc => String.mk acc.reverse :: splitlinesAux rest []
  | '\r' :: rest, acc => String.mk acc.reverse :: splitlinesAux rest []
  | c :: rest, acc => splitlinesAux rest (c :: acc)

/-- Python `s.splitlines()` (for the terminators `\n`, `\r\n`, `\r`):
no trailing empty line is produced for a final terminator. -/
def splitlines (s : String) : List String :=
  splitlinesAux s.data []

/-- Python `s[1:]`. -/
def strTail (s : String) : String :=
  String.mk (s.data.drop 1)

/-- Python `s[:1]`, viewed as an optional character (`none` when `s` is
empty, in which case the slice is the empty string and matches no
register marker). -/
def firstChar (s : String) : Option Char :=
  s.data.head?

/-- Python `str(x)` for a field that is either `None` or a string. -/
def fmtOpt : Option String → String
  | none => "None"
  | some s => s

/-- Model of `Translator._getHost` (the `full` parameter is always `False` at
every call site, and its branch is overwritten below it, so it is
omitted): split the FQDN on dots; with at least three labels keep all
labels except the last two; otherwise keep everything and append a
trailing dot. -/
def getHost (fqdn : String) : Option String :=
  let m := splitOnChar '.' fqdn
  if m = [] then none
  else
    let n := m.length
    if 3 ≤ n then some (String.intercalate "." (m.take (n - 2)))
    else some (String.intercalate "." m ++ ".")

/-- Model of `Translator._getDomain`: split the FQDN on dots; with at least three
labels keep the last two; otherwise keep everything. -/
def getDomain (fqdn : String) : Option String :=
  let m := splitOnChar '.' fqdn
  if m = [] then none
  else
    let n := m.length
    if 3 ≤ n then some (String.intercalate "." (m.drop (n - 2)))
    else some (String.intercalate "." m)

/-- The parsed SOA dictionary built from a `Z` line. -/
structure SOARecord where
  domain : String
  nameserver : String
  email : String
  serial : String
  refresh : String
  retry : String
  expire : String
  minimum : String
  ttl : String
deriving DecidableEq, Repr

/-- The parsed NS dictionary built from a `&` line. -/
structure NSRecord where
  hostname : String
  ip : String
  targetHostname : String
deriving DecidableEq, Repr

/-- The parsed MX dictionary built from a `@` line. -/
structure MXRecord where
  hostname : String
  ip : String
  targetHostname : String
  priority : String
deriving DecidableEq, Repr

/-- The parsed A dictionary built from a `+` line (`hostname` is the
result of `_getHost`, which in the source may be `None`). -/
structure ARecord where
  hostname : Option String
  ip : String
deriving DecidableEq, Repr

/-- The parsed CNAME dictionary built from a `C` line. -/
structure CNAMERecord where
  hostname : Option String
  targetHostname : String
deriving DecidableEq, Repr

/-- Model of `self.parsedContents`: each field is `none` exactly when the
corresponding dictionary key is absent. -/
structure ParsedContents where
  soa : Option SOARecord
  ns : Option (List NSRecord)
  mx : Option (List MXRecord)
  a : Option (List ARecord)
  cname : Option (List CNAMERecord)
deriving DecidableEq, Repr

/-- The mutable translator state: `self.domain`, `self.ttl`,
`self.parsedContents`. -/
structure TState where
  domain : Option String
  ttl : Option String
  parsedContents : ParsedContents
deriving DecidableEq, Repr

/-- The state right after `Translator.__init__` (before `parse`). -/
def initState : TState :=
  ⟨none, none, ⟨none, none, none, none, none⟩⟩

/-- How `Translator.parse` can abort the process: `invalidDomain` is the
`sys.exit(2)` on an invalid SOA main domain, `indexError` is a Python
`IndexError` from a missing positional field. -/
inductive ParseError where
  | invalidDomain
  | indexError
deriving DecidableEq, Repr

/-- How `Translator.write` can abort: a Python `KeyError` on the named
missing key of `parsedContents`. -/
inductive WriteError where
  | keyErrorSOA
  | keyErrorNS
  | keyErrorMX
deriving DecidableEq, Repr

/-- The SOA default-ttl computation of `Translator.parse`: the raw ttl
field, or the fallback `3600` when that field is falsy (empty). -/
def soaTtl (r : SOARecord) : String :=
  if r.ttl = "" then "3600" else r.ttl

/-- The SOA branch of the parse loop (register `Z`): derive the domain
from the marker-stripped first field (exiting when `_getDomain` returns
`None`), then read fields 1–8 positionally (a missing field is a Python
`IndexError`), wholesale-overwrite the `SOA` entry and reset the default
ttl (falling back to `3600` when the raw ttl field is empty). -/
def parseSOA (st : TState) (data : List String) : Except ParseError TState :=
  match getDomain (strTail (data.headD "")) with
  | none => .error .invalidDomain
  | some d =>
    match data with
    | _ :: a1 :: a2 :: a3 :: a4 :: a5 :: a6 :: a7 :: a8 :: _ =>
      .ok { st with
            domain := some d
            ttl := some (if a8 = "" then "3600" else a8)
            parsedContents :=
              { st.parsedContents with
                soa := some ⟨d, a1, a2, a3, a4, a5, a6, a7, a8⟩ } }
    | _ => .error .indexError

/-- The NS branch of the parse loop (register `&`). -/
def parseNS (st : TState) (data : List String) : Except ParseError TState :=
  match data with
  | f0 :: a1 :: a2 :: _ =>
    .ok { st with parsedContents :=
          { st.parsedContents with
            ns := some (st.parsedContents.ns.getD [] ++ [⟨strTail f0, a1, a2⟩]) } }
  | _ => .error .indexError

/-- The MX branch of the parse loop (register `@`). -/
def parseMX (st : TState) (data : List String) : Except ParseError TState :=
  match data with
  | f0 :: a1 :: a2 :: a3 :: _ =>
    .ok { st with parsedContents :=
          { st.parsedContents with
            mx := some (st.parsedContents.mx.getD [] ++ [⟨strTail f0, a1, a2, a3⟩]) } }
  | _ => .error .indexError

/-- The A branch of the parse loop (register `+`): the hostname is
reduced through `_getHost`. -/
def parseA (st : TState) (data : List String) : Except ParseError TState :=
  match data with
  | f0 :: a1 :: _ =>
    .ok { st with parsedContents :=
          { st.parsedContents with
            a := some (st.parsedContents.a.getD [] ++ [⟨getHost (strTail f0), a1⟩]) } }
  | _ => .error .indexError

/-- The CNAME branch of the parse loop (register `C`): the hostname is
reduced through `_getHost`. -/
def parseCNAME (st : TState) (data : List String) : Except ParseError TState :=
  match data with
  | f0 :: a1 :: _ =>
    .ok { st with parsedContents :=
          { st.parsedContents with
            cname := some (st.parsedContents.cname.getD [] ++ [⟨getHost (strTail f0), a1⟩]) } }
  | _ => .error .indexError

/-- The colon-field list of a line (`data` in the source). -/
def lineData (line : String) : List String :=
  splitOnChar ':' line

/-- The register of a line: the first character of its first colon
field (`data[0][:1]` in the source). -/
def lineRegister (line : String) : Option Char :=
  firstChar ((lineData line).headD "")

/-- One iteration of the loop in `Translator.parse`: split the line on
`:`, read the register, dispatch through the `self.mappings` table
(`Z`/`&`/`@`/`+`/`C`); any other register is silently skipped.  The
`data = []` guard mirrors the source's (unreachable) `if not data`
check; the comparison `data == ''` there is between a list and a string
and is always false in Python, so it is not modelled. -/
def parseLine (st : TState) (line : String) : Except ParseError TState :=
  if lineData line = [] then .ok st
  else if lineRegister line = some 'Z' then parseSOA st (lineData line)
  else if lineRegister line = some '&' then parseNS st (lineData line)
  else if lineRegister line = some '@' then parseMX st (lineData line)
  else if lineRegister line = some '+' then parseA st (lineData line)
  else if lineRegister line = some 'C' then parseCNAME st (lineData line)
  else .ok st

/-- The loop of `Translator.parse` over a list of lines. -/
def parseLines (st : TState) : List String → Except ParseError TState
  | [] => .ok st
  | l :: ls =>
    match parseLine st l with
    | .error e => .error e
    | .ok st' => parseLines st' ls

/-- Model of `Translator.parse`: split the raw contents into lines and run the
per-line loop starting from the freshly initialised state. -/
def parse (raw : String) : Except ParseError TState :=
  parseLines initState (splitlines raw)

/-- The `$ORIGIN` line printed by `Translator.write`. -/
def originLine (st : TState) : String :=
  "$ORIGIN " ++ fmtOpt st.domain ++ "."

/-- The `$TTL` line printed by `Translator.write`. -/
def ttlLine (st : TState) : String :=
  "$TTL " ++ fmtOpt st.ttl

/-- The SOA line printed by `Translator.write` (note: the `minimum`
field is parsed but not printed; the printed ttl is the record's raw
`ttl` field). -/
def soaLine (r : SOARecord) : String :=
  "@      IN SOA " ++ r.nameserver ++ " " ++ r.email ++ " (" ++ r.serial ++ " "
    ++ r.refresh ++ " " ++ r.retry ++ " " ++ r.expire ++ " " ++ r.ttl ++ ")"

/-- One NS output line. -/
def nsLine (rr : NSRecord) : String :=
  "\t\t\t\t\t\tIN NS " ++ rr.targetHostname

/-- One MX output line. -/
def mxLine (rr : MXRecord) : String :=
  "\t\t\t\t\t\tIN MX " ++ rr.priority ++ " " ++ rr.targetHostname

/-- One A output line. -/
def aLine (rr : ARecord) : String :=
  fmtOpt rr.hostname ++ "\t\t\t\t\t\tIN A " ++ rr.ip

/-- One CNAME output line (trailing dot on the target). -/
def cnameLine (rr : CNAMERecord) : String :=
  fmtOpt rr.hostname ++ "\t\t\t\t\t\tIN CNAME " ++ rr.targetHostname ++ "."

/-- Model of `Translator.write`: prints `$ORIGIN` and `$TTL`, then the SOA line
(`KeyError` if the `SOA` key is absent), then the NS lines (`KeyError`
if `NS` absent), then the MX lines (`KeyError` if `MX` absent), then —
guarded by key-existence checks — the A and CNAME lines.  Returns the
lines printed before the error, if any. -/
def write (st : TState) : List String × Option WriteError :=
  let l1 := originLine st
  let l2 := ttlLine st
  match st.parsedContents.soa with
  | none => ([l1, l2], some .keyErrorSOA)
  | some soa =>
    let l3 := soaLine soa
    match st.parsedContents.ns with
    | none => ([l1, l2, l3], some .keyErrorNS)
    | some nsl =>
      let nsLines := nsl.map nsLine
      match st.parsedContents.mx with
      | none => ([l1, l2, l3] ++ nsLines, some .keyErrorMX)
      | some mxl =>
        let mxLines := mxl.map mxLine
        let aLines :=
          match st.parsedContents.a with
          | none => []
          | some al => al.map aLine
        let cLines :=
          match st.parsedContents.cname with
          | none => []
          | some cl => cl.map cnameLine
        ([l1, l2, l3] ++ nsLines ++ mxLines ++ aLines ++ cLines, none)

/-! ## Per-line record extractors

For each record type, the record that a single input line contributes:
`none` when the line's register does not match, or when the line has too
few fields for the type (in which case the parse loop aborts with an
`IndexError` instead of contributing a record). -/

/-- The SOA record encoded by a field list, if complete and valid. -/
def soaOfData (data : List String) : Option SOARecord :=
  match getDomain (strTail (data.headD "")), data with
  | some d, _ :: a1 :: a2 :: a3 :: a4 :: a5 :: a6 :: a7 :: a8 :: _ =>
    some ⟨d, a1, a2, a3, a4, a5, a6, a7, a8⟩
  | _, _ => none

/-- The NS record encoded by a field list, if complete. -/
def nsOfData (data : List String) : Option NSRecord :=
  match data with
  | f0 :: a1 :: a2 :: _ => some ⟨strTail f0, a1, a2⟩
  | _ => none

/-- The MX record encoded by a field list, if complete. -/
def mxOfData (data : List String) : Option MXRecord :=
  match data with
  | f0 :: a1 :: a2 :: a3 :: _ => some ⟨strTail f0, a1, a2, a3⟩
  | _ => none

/-- The A record encoded by a field list, if complete. -/
def aOfData (data : List String) : Option ARecord :=
  match data with
  | f0 :: a1 :: _ => some ⟨getHost (strTail f0), a1⟩
  | _ => none

/-- The CNAME record encoded by a field list, if complete. -/
def cnameOfData (data : List String) : Option CNAMERecord :=
  match data with
  | f0 :: a1 :: _ => some ⟨getHost (strTail f0), a1⟩
  | _ => none

/-- The SOA record contributed by one line, if any. -/
def lineSOA (line : String) : Option SOARecord :=
  if lineRegister line = some 'Z' then soaOfData (lineData line) else none

/-- The NS record contributed by one line, if any. -/
def lineNS (line : String) : Option NSRecord :=
  if lineRegister line = some '&' then nsOfData (lineData line) else none

/-- The MX record contributed by one line, if any. -/
def lineMX (line : String) : Option MXRecord :=
  if lineRegister line = some '@' then mxOfData (lineData line) else none

/-- The A record contributed by one line, if any. -/
def lineA (line : String) : Option ARecord :=
  if lineRegister line = some '+' then aOfData (lineData line) else none

/-- The CNAME record contributed by one line, if any. -/
def lineCNAME (line : String) : Option CNAMERecord :=
  if lineRegister line = some 'C' then cnameOfData (lineData line) else none

/-! ## Accumulator combinators

How the parse loop's dictionary evolves: sequences grow by appending
(the key being created on first use), the SOA entry and the
domain/ttl cache are wholesale-overwritten by each `Z` line. -/

/-- Append new records to an optional sequence: when nothing is
appended the key's presence is unchanged; otherwise the key exists and
holds the old records followed by the new ones. -/
def updSeq (o : Option (List α)) (l : List α) : Option (List α) :=
  match l with
  | [] => o
  | _ => some (o.getD [] ++ l)

/-- Overwrite an optional cell with (the image under `f` of) the last
element of `l`, if any. -/
def lastUpdMap (f : α → β) (o : Option β) (l : List α) : Option β :=
  match l.getLast? with
  | some x => some (f x)
  | none => o

/-- What one loop iteration does to the state, phrased through the
per-line record extractors. -/
def stepSpec (st st' : TState) (line : String) : Prop :=
  st'.parsedContents.ns = updSeq st.parsedContents.ns (lineNS line).toList ∧
  st'.parsedContents.mx = updSeq st.parsedContents.mx (lineMX line).toList ∧
  st'.parsedContents.a = updSeq st.parsedContents.a (lineA line).toList ∧
  st'.parsedContents.cname = updSeq st.parsedContents.cname (lineCNAME line).toList ∧
  st'.parsedContents.soa = lastUpdMap id st.parsedContents.soa (lineSOA line).toList ∧
  st'.domain = lastUpdMap SOARecord.domain st.domain (lineSOA line).toList ∧
  st'.ttl = lastUpdMap soaTtl st.ttl (lineSOA line).toList

/-- What a whole run of the loop does to the state. -/
def runSpec (st st' : TState) (ls : List String) : Prop :=
  st'.parsedContents.ns = updSeq st.parsedContents.ns (ls.filterMap lineNS) ∧
  st'.parsedContents.mx = updSeq st.parsedContents.mx (ls.filterMap lineMX) ∧
  st'.parsedContents.a = updSeq st.parsedContents.a (ls.filterMap lineA) ∧
  st'.parsedContents.cname = updSeq st.parsedContents.cname (ls.filterMap lineCNAME) ∧
  st'.parsedContents.soa = lastUpdMap id st.parsedContents.soa (ls.filterMap lineSOA) ∧
  st'.domain = lastUpdMap SOARecord.domain st.domain (ls.filterMap lineSOA) ∧
  st'.ttl = lastUpdMap soaTtl st.ttl (ls.filterMap lineSOA)

/-- A line the loop survives is well formed: a recognized register
implies the corresponding record extractor succeeds. -/
def lineWf (line : String) : Prop :=
  (lineRegister line = some 'Z' → (lineSOA line).isSome) ∧
  (lineRegister line = some '&' → (lineNS line).isSome) ∧
  (lineRegister line = some '@' → (lineMX line).isSome) ∧
  (lineRegister line = some '+' → (lineA line).isSome) ∧
  (lineRegister line = some 'C' → (lineCNAME line).isSome)

/-- The spec's description of **Domain Derivation**: split the FQDN on
`.` into labels; with at least three labels the domain is the last two
labels joined by `.`; with fewer it is all labels joined by `.` (no
trailing dot). -/
def deriveDomainSpec (fqdn : String) : String :=
  let labels := splitOnChar '.' fqdn
  if 3 ≤ labels.length then String.intercalate "." (labels.rtake 2)
  else String.intercalate "." labels

/-- The spec's description of **Host Derivation**: split the FQDN on `.`
into labels; with at least three labels the host is all labels except
the last two joined by `.` (no trailing dot); with fewer it is all
labels joined by `.` with a trailing `.` appended. -/
def deriveHostSpec (fqdn : String) : String :=
  let labels := splitOnChar '.' fqdn
  if 3 ≤ labels.length then String.intercalate "." (labels.rdrop 2)
  else String.intercalate "." labels ++ "."

/-- Concrete input for the C5 witness: the SOA line's ttl field (field
8) is empty. -/
def rawC5 : String := "Zexample.com:ns1:em:1:2:3:4:5:"

/-- The SOA record parsed from `rawC5`. -/
def soaC5 : SOARecord := ⟨"example.com", "ns1", "em", "1", "2", "3", "4", "5", ""⟩

/-- The state produced by parsing `rawC5`. -/
def stC5 : TState := ⟨some "example.com", some "3600", ⟨some soaC5, none, none, none, none⟩⟩

/-- Concrete input for the C7 witness: three `+`-records in input order
`b`, `a`, `c`. -/
def rawC7 : String :=
  "Zexample.com:ns1:em:1:2:3:4:5:6\n&example.com:ip1:ns1.example.com\n@example.com:ip2:mail.example.com:10\n+b.example.com:1.1.1.1\n+a.example.com:2.2.2.2\n+c.example.com:3.3.3.3"

/-- The SOA record parsed from `rawC7`. -/
def soaC7 : SOARecord := ⟨"example.com", "ns1", "em", "1", "2", "3", "4", "5", "6"⟩

/-- The NS sequence parsed from `rawC7`. -/
def nsC7 : List NSRecord := [⟨"example.com", "ip1", "ns1.example.com"⟩]

/-- The MX sequence parsed from `rawC7`. -/
def mxC7 : List MXRecord := [⟨"example.com", "ip2", "mail.example.com", "10"⟩]

/-- The state produced by parsing `rawC7`. -/
def stC7 : TState :=
  ⟨some "example.com", some "6",
   ⟨some soaC7, some nsC7, some mxC7,
    some [⟨some "b", "1.1.1.1"⟩, ⟨some "a", "2.2.2.2"⟩, ⟨some "c", "3.3.3.3"⟩], none⟩⟩

/-- The SOA record parsed from `rawC10`. -/
def soaC10 : SOARecord := ⟨"example.com", "ns1", "em", "1", "2", "3", "4", "5", "6"⟩

/-- The state produced by parsing an input with an SOA line but no `&`
and no `@` line. -/
def stC10 : TState := ⟨some "example.com", some "6", ⟨some soaC10, none, none, none, none⟩⟩

/-- Input with no `Z` line for the C2 counterexample. -/
def rawC2 : String := "+www.example.com:5.6.7.8"

/-- The state produced by parsing `rawC2`. -/
def stC2 : TState := ⟨none, none, ⟨none, none, none, some [⟨some "www", "5.6.7.8"⟩], none⟩⟩

/-- Input with no `Z` line for the C2 witness. -/
def rawC2w : String := "&example.com:1.2.3.4:ns1.example.com"

/-- The state produced by parsing `rawC2w`. -/
def stC2w : TState :=
  ⟨none, none, ⟨none, some [⟨"example.com", "1.2.3.4", "ns1.example.com"⟩], none, none, none⟩⟩

/-- Input with two `Z` lines for C6. -/
def rawC6 : String :=
  "Zexample.com:ns1:em1:1:2:3:4:5:6\nZtest.org:ns2:em2:7:8:9:10:11:12"

/-- The SOA record parsed from `rawC6` — the one of the second `Z` line. -/
def soaC6 : SOARecord := ⟨"test.org", "ns2", "em2", "7", "8", "9", "10", "11", "12"⟩

/-- The state produced by parsing `rawC6`. -/
def stC6 : TState := ⟨some "test.org", some "12", ⟨some soaC6, none, none, none, none⟩⟩

/-- The number of input lines whose first character is `c`. -/
def countReg (c : Char) (raw : String) : Nat :=
  (splitlines raw).countP (fun l => decide (firstChar l = some c))

/-- Input with an SOA and one `+` line but no `&` line (C8
counterexample). -/
def rawC8 : String := "Zexample.com:ns1:em:1:2:3:4:5:6\n+www.example.com:5.6.7.8"

/-- The SOA record parsed from `rawC8`. -/
def soaC8 : SOARecord := ⟨"example.com", "ns1", "em", "1", "2", "3", "4", "5", "6"⟩

/-- The state produced by parsing `rawC8`. -/
def stC8 : TState :=
  ⟨some "example.com", some "6",
   ⟨some soaC8, none, none, some [⟨some "www", "5.6.7.8"⟩], none⟩⟩

/-- Input exercising all registers plus an unknown one (C8 witness). -/
def rawC8w : String :=
  "Zexample.com:ns1:em:1:2:3:4:5:6\n&example.com:ip:ns1\n@example.com:ip:mx1:5\n+www.example.com:1.2.3.4\nCblog.example.com:www.example.com\n# a comment line"

/-- The state produced by parsing `rawC8w`. -/
def stC8w : TState :=
  ⟨some "example.com", some "6",
   ⟨some ⟨"example.com", "ns1", "em", "1", "2", "3", "4", "5", "6"⟩,
    some [⟨"example.com", "ip", "ns1"⟩],
    some [⟨"example.com", "ip", "mx1", "5"⟩],
    some [⟨some "www", "1.2.3.4"⟩],
    some [⟨some "blog", "www.example.com"⟩]⟩⟩

/-- The exact four-line input of the spec's end-to-end scenario (C1). -/
def rawC1 : String :=
  "Zexample.com:ns1.example.com:hostmaster.example.com:1:7200:3600:1209600:3600:3600\n&example.com:1.2.3.4:ns1.example.com\n+www.example.com:5.6.7.8\nCblog.example.com:www.example.com"

/-- The state produced by parsing `rawC1`. -/
def stC1 : TState :=
  ⟨some "example.com", some "3600",
   ⟨some ⟨"example.com", "ns1.example.com", "hostmaster.example.com", "1", "7200",
          "3600", "1209600", "3600", "3600"⟩,
    some [⟨"example.com", "1.2.3.4", "ns1.example.com"⟩],
    none,
    some [⟨some "www", "5.6.7.8"⟩],
    some [⟨some "blog", "www.example.com"⟩]⟩⟩

/-- SOA line whose marker-stripped FQDN is empty (C9). -/
def rawC9 : String := "Z:ns:email:1:2:3:4:5:6"

/-- The state produced by parsing `rawC9`. -/
def stC9 : TState :=
  ⟨some "", some "6",
   ⟨some ⟨"", "ns", "email", "1", "2", "3", "4", "5", "6"⟩, none, none, none, none⟩⟩

theorem splitOnCharAux_ne_nil (sep : Char) (l acc : List Char) :
    splitOnCharAux sep l acc ≠ [] := by
  induction l generalizing acc with
  | nil => simp [splitOnCharAux]
  | cons c rest ih =>
    simp only [splitOnCharAux]
    split
    · simp
    · exact ih _

theorem splitOnChar_ne_nil (sep : Char) (s : String) : splitOnChar sep s ≠ [] :=
  splitOnCharAux_ne_nil sep s.data []

theorem headD_splitOnCharAux (sep : Char) (l acc : List Char) :
    (splitOnCharAux sep l acc).headD "" =
      String.mk (acc.reverse ++ l.takeWhile (fun x => x != sep)) := by
  induction l generalizing acc with
  | nil => simp [splitOnCharAux]
  | cons c rest ih =>
    simp only [splitOnCharAux]
    by_cases h : c = sep
    · subst h
      simp [List.takeWhile_cons]
    · rw [if_neg h, ih]
      simp [List.takeWhile_cons, h]

theorem lineRegister_eq_iff (line : String) (c : Char) (hc : c ≠ ':') :
    lineRegister line = some c ↔ firstChar line = some c := by
  have hr : lineRegister line = (line.data.takeWhile (fun x => x != ':')).head? := by
    unfold lineRegister lineData splitOnChar firstChar
    rw [headD_splitOnCharAux]
    rfl
  rw [hr]
  unfold firstChar
  cases hd : line.data with
  | nil => simp
  | cons d rest =>
    by_cases hds : d = ':'
    · subst hds
      have : c ≠ ':' := hc
      simp [List.takeWhile_cons, Ne.symm hc]
    · simp [List.takeWhile_cons, hds]

theorem parseSOA_ok {st st' : TState} {data : List String}
    (h : parseSOA st data = .ok st') :
    ∃ r, soaOfData data = some r ∧
      st' = { st with
              domain := some r.domain
              ttl := some (soaTtl r)
              parsedContents := { st.parsedContents with soa := some r } } := by
  unfold parseSOA at h
  split at h
  · exact Except.noConfusion h
  next d hd =>
    split at h
    next a1 a2 a3 a4 a5 a6 a7 a8 rest =>
      injection h with h
      subst h
      refine ⟨⟨d, a1, a2, a3, a4, a5, a6, a7, a8⟩, ?_, rfl⟩
      unfold soaOfData
      rw [hd]
    next =>
      exact Except.noConfusion h

theorem parseNS_ok {st st' : TState} {data : List String}
    (h : parseNS st data = .ok st') :
    ∃ r, nsOfData data = some r ∧
      st' = { st with parsedContents :=
              { st.parsedContents with
                ns := some (st.parsedContents.ns.getD [] ++ [r]) } } := by
  unfold parseNS at h
  split at h
  next f0 a1 a2 rest =>
    injection h with h
    subst h
    exact ⟨⟨strTail f0, a1, a2⟩, rfl, rfl⟩
  next =>
    exact Except.noConfusion h

theorem parseMX_ok {st st' : TState} {data : List String}
    (h : parseMX st data = .ok st') :
    ∃ r, mxOfData data = some r ∧
      st' = { st with parsedContents :=
              { st.parsedContents with
                mx := some (st.parsedContents.mx.getD [] ++ [r]) } } := by
  unfold parseMX at h
  split at h
  next f0 a1 a2 a3 rest =>
    injection h with h
    subst h
    exact ⟨⟨strTail f0, a1, a2, a3⟩, rfl, rfl⟩
  next =>
    exact Except.noConfusion h

theorem parseA_ok {st st' : TState} {data : List String}
    (h : parseA st data = .ok st') :
    ∃ r, aOfData data = some r ∧
      st' = { st with parsedContents :=
              { st.parsedContents with
                a := some (st.parsedContents.a.getD [] ++ [r]) } } := by
  unfold parseA at h
  split at h
  next f0 a1 rest =>
    injection h with h
    subst h
    exact ⟨⟨getHost (strTail f0), a1⟩, rfl, rfl⟩
  next =>
    exact Except.noConfusion h

theorem parseCNAME_ok {st st' : TState} {data : List String}
    (h : parseCNAME st data = .ok st') :
    ∃ r, cnameOfData data = some r ∧
      st' = { st with parsedContents :=
              { st.parsedContents with
                cname := some (st.parsedContents.cname.getD [] ++ [r]) } } := by
  unfold parseCNAME at h
  split at h
  next f0 a1 rest =>
    injection h with h
    subst h
    exact ⟨⟨getHost (strTail f0), a1⟩, rfl, rfl⟩
  next =>
    exact Except.noConfusion h

theorem parseLine_ok {st st' : TState} {line : String}
    (h : parseLine st line = .ok st') : stepSpec st st' line := by
  unfold parseLine at h
  by_cases h0 : lineData line = []
  · rw [if_pos h0] at h
    injection h with h
    subst h
    have hreg : lineRegister line = none := by
      unfold lineRegister
      rw [h0]
      rfl
    unfold stepSpec lineNS lineMX lineA lineCNAME lineSOA
    simp [hreg, updSeq, lastUpdMap]
  rw [if_neg h0] at h
  by_cases hZ : lineRegister line = some 'Z'
  · rw [if_pos hZ] at h
    obtain ⟨r, hr, hst⟩ := parseSOA_ok h
    subst hst
    unfold stepSpec lineNS lineMX lineA lineCNAME lineSOA
    simp [hZ, hr, updSeq, lastUpdMap]
  rw [if_neg hZ] at h
  by_cases hN : lineRegister line = some '&'
  · rw [if_pos hN] at h
    obtain ⟨r, hr, hst⟩ := parseNS_ok h
    subst hst
    unfold stepSpec lineNS lineMX lineA lineCNAME lineSOA
    simp [hN, hr, updSeq, lastUpdMap]
  rw [if_neg hN] at h
  by_cases hM : lineRegister line = some '@'
  · rw [if_pos hM] at h
    obtain ⟨r, hr, hst⟩ := parseMX_ok h
    subst hst
    unfold stepSpec lineNS lineMX lineA lineCNAME lineSOA
    simp [hM, hr, updSeq, lastUpdMap]
  rw [if_neg hM] at h
  by_cases hA : lineRegister line = some '+'
  · rw [if_pos hA] at h
    obtain ⟨r, hr, hst⟩ := parseA_ok h
    subst hst
    unfold stepSpec lineNS lineMX lineA lineCNAME lineSOA
    simp [hA, hr, updSeq, lastUpdMap]
  rw [if_neg hA] at h
  by_cases hC : lineRegister line = some 'C'
  · rw [if_pos hC] at h
    obtain ⟨r, hr, hst⟩ := parseCNAME_ok h
    subst hst
    unfold stepSpec lineNS lineMX lineA lineCNAME lineSOA
    simp [hC, hr, updSeq, lastUpdMap]
  rw [if_neg hC] at h
  injection h with h
  subst h
  unfold stepSpec lineNS lineMX lineA lineCNAME lineSOA
  simp [hZ, hN, hM, hA, hC, updSeq, lastUpdMap]

theorem updSeq_updSeq (o : Option (List α)) (l1 l2 : List α) :
    updSeq (updSeq o l1) l2 = updSeq o (l1 ++ l2) := by
  cases l1 with
  | nil => simp [updSeq]
  | cons x xs =>
    cases l2 with
    | nil => simp [updSeq]
    | cons y ys => simp [updSeq]

theorem lastUpdMap_lastUpdMap (f : α → β) (o : Option β) (l1 l2 : List α) :
    lastUpdMap f (lastUpdMap f o l1) l2 = lastUpdMap f o (l1 ++ l2) := by
  cases h2 : l2.getLast? with
  | some x =>
    unfold lastUpdMap
    rw [h2, List.getLast?_append, h2]
    rfl
  | none =>
    have : l2 = [] := by
      cases l2 with
      | nil => rfl
      | cons y ys => simp [List.getLast?_cons] at h2
    subst this
    simp [lastUpdMap]

theorem filterMap_cons_toList (f : α → Option β) (x : α) (xs : List α) :
    List.filterMap f (x :: xs) = (f x).toList ++ List.filterMap f xs := by
  cases h : f x <;> simp [List.filterMap_cons, h]

theorem parseLines_ok : ∀ {ls : List String} {st st' : TState},
    parseLines st ls = .ok st' → runSpec st st' ls := by
  intro ls
  induction ls with
  | nil =>
    intro st st' h
    injection h with h
    subst h
    unfold runSpec
    simp [updSeq, lastUpdMap]
  | cons l ls ih =>
    intro st st' h
    simp only [parseLines] at h
    cases hpl : parseLine st l with
    | error e => rw [hpl] at h; exact Except.noConfusion h
    | ok st1 =>
      rw [hpl] at h
      obtain ⟨e1, e2, e3, e4, e5, e6, e7⟩ := parseLine_ok hpl
      obtain ⟨f1, f2, f3, f4, f5, f6, f7⟩ := ih h
      refine ⟨?_, ?_, ?_, ?_, ?_, ?_, ?_⟩
      · rw [filterMap_cons_toList, ← updSeq_updSeq, f1, e1]
      · rw [filterMap_cons_toList, ← updSeq_updSeq, f2, e2]
      · rw [filterMap_cons_toList, ← updSeq_updSeq, f3, e3]
      · rw [filterMap_cons_toList, ← updSeq_updSeq, f4, e4]
      · rw [filterMap_cons_toList, ← lastUpdMap_lastUpdMap, f5, e5]
      · rw [filterMap_cons_toList, ← lastUpdMap_lastUpdMap, f6, e6]
      · rw [filterMap_cons_toList, ← lastUpdMap_lastUpdMap, f7, e7]

theorem parseLine_ok_wf {st st' : TState} {line : String}
    (h : parseLine st line = .ok st') : lineWf line := by
  unfold parseLine at h
  by_cases h0 : lineData line = []
  · have hreg : lineRegister line = none := by
      unfold lineRegister
      rw [h0]
      rfl
    refine ⟨?_, ?_, ?_, ?_, ?_⟩ <;> (rw [hreg]; intro hcon; exact Option.noConfusion hcon)
  rw [if_neg h0] at h
  by_cases hZ : lineRegister line = some 'Z'
  · rw [if_pos hZ] at h
    obtain ⟨r, hr, -⟩ := parseSOA_ok h
    refine ⟨?_, ?_, ?_, ?_, ?_⟩
    · intro _
      unfold lineSOA
      rw [if_pos hZ, hr]
      rfl
    all_goals (rw [hZ]; intro hcon; exact absurd hcon (by decide))
  rw [if_neg hZ] at h
  by_cases hN : lineRegister line = some '&'
  · rw [if_pos hN] at h
    obtain ⟨r, hr, -⟩ := parseNS_ok h
    refine ⟨?_, ?_, ?_, ?_, ?_⟩
    · rw [hN]; intro hcon; exact absurd hcon (by decide)
    · intro _
      unfold lineNS
      rw [if_pos hN, hr]
      rfl
    all_goals (rw [hN]; intro hcon; exact absurd hcon (by decide))
  rw [if_neg hN] at h
  by_cases hM : lineRegister line = some '@'
  · rw [if_pos hM] at h
    obtain ⟨r, hr, -⟩ := parseMX_ok h
    refine ⟨?_, ?_, ?_, ?_, ?_⟩
    · rw [hM]; intro hcon; exact absurd hcon (by decide)
    · rw [hM]; intro hcon; exact absurd hcon (by decide)
    · intro _
      unfold lineMX
      rw [if_pos hM, hr]
      rfl
    all_goals (rw [hM]; intro hcon; exact absurd hcon (by decide))
  rw [if_neg hM] at h
  by_cases hA : lineRegister line = some '+'
  · rw [if_pos hA] at h
    obtain ⟨r, hr, -⟩ := parseA_ok h
    refine ⟨?_, ?_, ?_, ?_, ?_⟩
    · rw [hA]; intro hcon; exact absurd hcon (by decide)
    · rw [hA]; intro hcon; exact absurd hcon (by decide)
    · rw [hA]; intro hcon; exact absurd hcon (by decide)
    · intro _
      unfold lineA
      rw [if_pos hA, hr]
      rfl
    · rw [hA]; intro hcon; exact absurd hcon (by decide)
  rw [if_neg hA] at h
  by_cases hC : lineRegister line = some 'C'
  · rw [if_pos hC] at h
    obtain ⟨r, hr, -⟩ := parseCNAME_ok h
    refine ⟨?_, ?_, ?_, ?_, ?_⟩
    · rw [hC]; intro hcon; exact absurd hcon (by decide)
    · rw [hC]; intro hcon; exact absurd hcon (by decide)
    · rw [hC]; intro hcon; exact absurd hcon (by decide)
    · rw [hC]; intro hcon; exact absurd hcon (by decide)
    · intro _
      unfold lineCNAME
      rw [if_pos hC, hr]
      rfl
  refine ⟨?_, ?_, ?_, ?_, ?_⟩ <;> (intro hcon)
  · exact absurd hcon hZ
  · exact absurd hcon hN
  · exact absurd hcon hM
  · exact absurd hcon hA
  · exact absurd hcon hC

theorem parseLines_ok_wf : ∀ {ls : List String} {st st' : TState},
    parseLines st ls = .ok st' → ∀ l ∈ ls, lineWf l := by
  intro ls
  induction ls with
  | nil =>
    intro st st' _ l hl
    exact absurd hl (List.not_mem_nil l)
  | cons x xs ih =>
    intro st st' h l hl
    simp only [parseLines] at h
    cases hpl : parseLine st x with
    | error e => rw [hpl] at h; exact Except.noConfusion h
    | ok st1 =>
      rw [hpl] at h
      rcases List.mem_cons.mp hl with hx | hxs
      · subst hx
        exact parseLine_ok_wf hpl
      · exact ih h l hxs

theorem getD_updSeq_none (l : List α) : (updSeq none l).getD [] = l := by
  cases l <;> simp [updSeq]

theorem lastUpdMap_none (f : α → β) (l : List α) :
    lastUpdMap f none l = l.getLast?.map f := by
  cases h : l.getLast? <;> simp [lastUpdMap, h]

/-- What a successful `parse` guarantees about the resulting state:
each record sequence is exactly the in-order list of records of the
matching input lines, and the SOA entry (with the cached domain and
default ttl) comes from the last `Z` line, if any. -/
theorem parse_ok {raw : String} {st : TState} (h : parse raw = .ok st) :
    st.parsedContents.ns = updSeq none ((splitlines raw).filterMap lineNS) ∧
    st.parsedContents.mx = updSeq none ((splitlines raw).filterMap lineMX) ∧
    st.parsedContents.a = updSeq none ((splitlines raw).filterMap lineA) ∧
    st.parsedContents.cname = updSeq none ((splitlines raw).filterMap lineCNAME) ∧
    st.parsedContents.soa = ((splitlines raw).filterMap lineSOA).getLast? ∧
    st.domain = ((splitlines raw).filterMap lineSOA).getLast?.map SOARecord.domain ∧
    st.ttl = ((splitlines raw).filterMap lineSOA).getLast?.map soaTtl := by
  unfold parse at h
  obtain ⟨f1, f2, f3, f4, f5, f6, f7⟩ := parseLines_ok h
  refine ⟨f1, f2, f3, f4, ?_, ?_, ?_⟩
  · rw [f5]
    exact (lastUpdMap_none id _).trans (by simp)
  · rw [f6]
    exact lastUpdMap_none SOARecord.domain _
  · rw [f7]
    exact lastUpdMap_none soaTtl _

theorem parse_ok_wf {raw : String} {st : TState} (h : parse raw = .ok st) :
    ∀ l ∈ splitlines raw, lineWf l :=
  parseLines_ok_wf h

theorem write_soa_none {st : TState} (h : st.parsedContents.soa = none) :
    write st = ([originLine st, ttlLine st], some .keyErrorSOA) := by
  unfold write
  rw [h]

theorem write_ns_none {st : TState} {soa : SOARecord}
    (hs : st.parsedContents.soa = some soa) (hn : st.parsedContents.ns = none) :
    write st = ([originLine st, ttlLine st, soaLine soa], some .keyErrorNS) := by
  unfold write
  rw [hs, hn]

theorem write_mx_none {st : TState} {soa : SOARecord} {nsl : List NSRecord}
    (hs : st.parsedContents.soa = some soa) (hn : st.parsedContents.ns = some nsl)
    (hm : st.parsedContents.mx = none) :
    write st = ([originLine st, ttlLine st, soaLine soa] ++ nsl.map nsLine,
      some .keyErrorMX) := by
  unfold write
  rw [hs, hn, hm]

theorem write_all_some {st : TState} {soa : SOARecord} {nsl : List NSRecord}
    {mxl : List MXRecord}
    (hs : st.parsedContents.soa = some soa) (hn : st.parsedContents.ns = some nsl)
    (hm : st.parsedContents.mx = some mxl) :
    write st = ([originLine st, ttlLine st, soaLine soa] ++ nsl.map nsLine
      ++ mxl.map mxLine ++ (st.parsedContents.a.getD []).map aLine
      ++ (st.parsedContents.cname.getD []).map cnameLine, none) := by
  unfold write
  rw [hs, hn, hm]
  cases ha : st.parsedContents.a <;> cases hc : st.parsedContents.cname <;> simp

/-- Claim C3 (domain derivation): for every fqdn, `_getDomain` splits on
`.` and returns the last two labels joined by `.` when there are at
least three labels, and all labels joined by `.` (no trailing dot)
otherwise; in particular `ns1.example.com ↦ example.com`,
`example.com ↦ example.com`, `localhost ↦ localhost`. -/
theorem deriveDomain_spec :
    (∀ fqdn : String, getDomain fqdn = some (deriveDomainSpec fqdn)) ∧
    getDomain "ns1.example.com" = some "example.com" ∧
    getDomain "example.com" = some "example.com" ∧
    getDomain "localhost" = some "localhost" := by
  refine ⟨?_, by decide, by decide, by decide⟩
  intro fqdn
  simp only [getDomain, deriveDomainSpec]
  rw [if_neg (splitOnChar_ne_nil '.' fqdn)]
  by_cases h : 3 ≤ (splitOnChar '.' fqdn).length
  · rw [if_pos h, if_pos h]
    rfl
  · rw [if_neg h, if_neg h]

/-- Claim C4 (host derivation): for every fqdn, `_getHost` splits on `.`
and returns all labels except the last two joined by `.` (no trailing
dot) when there are at least three labels, and all labels joined by `.`
with a trailing `.` appended otherwise; in particular
`www.example.com ↦ www`, `mail.staging.example.com ↦ mail.staging`,
`example.com ↦ example.com.`. -/
theorem deriveHost_spec :
    (∀ fqdn : String, getHost fqdn = some (deriveHostSpec fqdn)) ∧
    getHost "www.example.com" = some "www" ∧
    getHost "mail.staging.example.com" = some "mail.staging" ∧
    getHost "example.com" = some "example.com." := by
  refine ⟨?_, by decide, by decide, by decide⟩
  intro fqdn
  simp only [getHost, deriveHostSpec]
  rw [if_neg (splitOnChar_ne_nil '.' fqdn)]
  by_cases h : 3 ≤ (splitOnChar '.' fqdn).length
  · rw [if_pos h, if_pos h]
    rfl
  · rw [if_neg h, if_neg h]

theorem write_head_lines {st : TState} {soa : SOARecord}
    (hsoa : st.parsedContents.soa = some soa) :
    (write st).1[0]? = some (originLine st) ∧
    (write st).1[1]? = some (ttlLine st) ∧
    (write st).1[2]? = some (soaLine soa) := by
  cases hns : st.parsedContents.ns with
  | none =>
    rw [write_ns_none hsoa hns]
    exact ⟨rfl, rfl, rfl⟩
  | some nsl =>
    cases hmx : st.parsedContents.mx with
    | none =>
      rw [write_mx_none hsoa hns hmx]
      refine ⟨?_, ?_, ?_⟩ <;> simp
    | some mxl =>
      rw [write_all_some hsoa hns hmx]
      refine ⟨?_, ?_, ?_⟩ <;> simp

/-- Claim C5 (TTL fallback and SOA-line ttl): when parsing succeeds and
the SOA record's raw ttl field is empty, the zone default ttl is the
fallback `3600` and the `$TTL` line prints `3600`, while the
parenthesized ttl printed on the `@ IN SOA` line is the record's own raw
ttl field (here empty), not the fallback. -/
theorem ttl_fallback_and_raw_soa_ttl (raw : String) (st : TState) (soa : SOARecord)
    (hp : parse raw = .ok st) (hsoa : st.parsedContents.soa = some soa)
    (ht : soa.ttl = "") :
    st.ttl = some "3600" ∧
    (write st).1[1]? = some "$TTL 3600" ∧
    (write st).1[2]? = some ("@      IN SOA " ++ soa.nameserver ++ " " ++ soa.email
      ++ " (" ++ soa.serial ++ " " ++ soa.refresh ++ " " ++ soa.retry ++ " "
      ++ soa.expire ++ " " ++ soa.ttl ++ ")") := by
  obtain ⟨-, -, -, -, f5, -, f7⟩ := parse_ok hp
  have hlast := f5.symm.trans hsoa
  have httl : st.ttl = some "3600" := by
    rw [f7, hlast]
    simp [soaTtl, ht]
  obtain ⟨-, h1, h2⟩ := write_head_lines hsoa
  refine ⟨httl, ?_, ?_⟩
  · rw [h1]
    unfold ttlLine
    rw [httl]
    rfl
  · rw [h2]
    rfl

/-- Witness for C5 at a concrete input. -/
theorem ttl_fallback_and_raw_soa_ttl_witness :
    stC5.ttl = some "3600" ∧
    (write stC5).1[1]? = some "$TTL 3600" ∧
    (write stC5).1[2]? = some ("@      IN SOA " ++ soaC5.nameserver ++ " " ++ soaC5.email
      ++ " (" ++ soaC5.serial ++ " " ++ soaC5.refresh ++ " " ++ soaC5.retry ++ " "
      ++ soaC5.expire ++ " " ++ soaC5.ttl ++ ")") :=
  ttl_fallback_and_raw_soa_ttl rawC5 stC5 soaC5 (by rfl) (by rfl) (by rfl)

theorem eq_of_updSeq_none_some {l m : List α} (h : some l = updSeq none m) : l = m := by
  cases m with
  | nil => exact absurd h (by simp [updSeq])
  | cons x xs => simpa [updSeq] using h

/-- Claim C7 (order preservation): after a successful parse, each of the
NS/MX/A/CNAME sequences is exactly the in-input-order list of records of
the matching lines (no reordering, no deduplication), and when the
formatter completes its section loops the emitted NS/MX/A/CNAME lines
are respectively those sequences mapped through the per-record line
formatters, in the same order. -/
theorem order_preservation (raw : String) (st : TState)
    (hp : parse raw = .ok st) :
    st.parsedContents.ns.getD [] = (splitlines raw).filterMap lineNS ∧
    st.parsedContents.mx.getD [] = (splitlines raw).filterMap lineMX ∧
    st.parsedContents.a.getD [] = (splitlines raw).filterMap lineA ∧
    st.parsedContents.cname.getD [] = (splitlines raw).filterMap lineCNAME ∧
    ∀ soa nsl mxl, st.parsedContents.soa = some soa →
      st.parsedContents.ns = some nsl → st.parsedContents.mx = some mxl →
      (write st).1 = [originLine st, ttlLine st, soaLine soa]
        ++ ((splitlines raw).filterMap lineNS).map nsLine
        ++ ((splitlines raw).filterMap lineMX).map mxLine
        ++ ((splitlines raw).filterMap lineA).map aLine
        ++ ((splitlines raw).filterMap lineCNAME).map cnameLine := by
  obtain ⟨f1, f2, f3, f4, f5, f6, f7⟩ := parse_ok hp
  refine ⟨by rw [f1, getD_updSeq_none], by rw [f2, getD_updSeq_none],
          by rw [f3, getD_updSeq_none], by rw [f4, getD_updSeq_none],
          ?_⟩
  intro soa nsl mxl hsoa hns hmx
  have hnsl : nsl = (splitlines raw).filterMap lineNS :=
    eq_of_updSeq_none_some (hns.symm.trans f1)
  have hmxl : mxl = (splitlines raw).filterMap lineMX :=
    eq_of_updSeq_none_some (hmx.symm.trans f2)
  rw [write_all_some hsoa hns hmx]
  rw [hnsl, hmxl, f3, f4, getD_updSeq_none, getD_updSeq_none]

/-- Witness for C7: the A lines are emitted in the input order
`b`, `a`, `c`. -/
theorem order_preservation_witness :
    (write stC7).1 = ["$ORIGIN example.com.", "$TTL 6",
      "@      IN SOA ns1 em (1 2 3 4 6)",
      "\t\t\t\t\t\tIN NS ns1.example.com",
      "\t\t\t\t\t\tIN MX 10 mail.example.com",
      "b\t\t\t\t\t\tIN A 1.1.1.1",
      "a\t\t\t\t\t\tIN A 2.2.2.2",
      "c\t\t\t\t\t\tIN A 3.3.3.3"] :=
  ((order_preservation rawC7 stC7 (by rfl)).2.2.2.2 soaC7 nsC7 mxC7
    (by rfl) (by rfl) (by rfl)).trans (by rfl)

/-- Claim C10 (implicit: the formatter requires NS and MX): for any record set
holding an SOA entry, a missing `NS` key makes `write` fail with the NS
`KeyError` after having printed exactly the `$ORIGIN`, `$TTL` and SOA
lines; with `NS` present but `MX` missing it fails with the MX
`KeyError` after additionally printing the NS lines; with both present
it never fails — the A and CNAME sections are guarded by existence
checks and cannot fail. -/
theorem write_requires_ns_and_mx (st : TState) (soa : SOARecord)
    (hsoa : st.parsedContents.soa = some soa) :
    (st.parsedContents.ns = none →
      write st = ([originLine st, ttlLine st, soaLine soa],
        some WriteError.keyErrorNS)) ∧
    (∀ nsl, st.parsedContents.ns = some nsl → st.parsedContents.mx = none →
      write st = ([originLine st, ttlLine st, soaLine soa] ++ nsl.map nsLine,
        some WriteError.keyErrorMX)) ∧
    (∀ nsl mxl, st.parsedContents.ns = some nsl →
      st.parsedContents.mx = some mxl → (write st).2 = none) := by
  refine ⟨fun hn => write_ns_none hsoa hn,
          fun nsl hn hm => write_mx_none hsoa hn hm,
          fun nsl mxl hn hm => ?_⟩
  rw [write_all_some hsoa hn hm]

/-- Witness for C10: parsing an SOA-only input and writing fails with
the NS `KeyError` right after the three header lines. -/
theorem write_requires_ns_and_mx_witness :
    parse "Zexample.com:ns1:em:1:2:3:4:5:6" = .ok stC10 ∧
    write stC10 = (["$ORIGIN example.com.", "$TTL 6",
      "@      IN SOA ns1 em (1 2 3 4 6)"], some WriteError.keyErrorNS) :=
  ⟨by rfl,
   ((write_requires_ns_and_mx stC10 soaC10 (by rfl)).1 (by rfl)).trans (by rfl)⟩

/-- Claim C2 counterexample: the claim says that with no `Z` line no
`$ORIGIN` line is emitted and no zone-file output is produced before the
failure; in fact parsing succeeds and `write` emits the line
`$ORIGIN None.` (so output beginning with `$ORIGIN` is produced) before
failing. -/
theorem no_soa_emits_origin_cex :
    parse rawC2 = .ok stC2 ∧
    (write stC2).1[0]? = some "$ORIGIN None." ∧
    (write stC2).1 ≠ [] :=
  ⟨by rfl, by rfl, by decide⟩

/-- Claim C2 amended (SOA required): for input with no `Z`-prefixed line,
parsing establishes no domain, ttl or SOA entry, and the translation
then fails with the SOA `KeyError` — but only after `write` has emitted
the two header lines `$ORIGIN None.` and `$TTL None`. -/
theorem no_soa_fails_after_headers (raw : String) (st : TState)
    (hz : ∀ l ∈ splitlines raw, firstChar l ≠ some 'Z')
    (hp : parse raw = .ok st) :
    st.domain = none ∧ st.ttl = none ∧ st.parsedContents.soa = none ∧
    write st = (["$ORIGIN None.", "$TTL None"], some WriteError.keyErrorSOA) := by
  obtain ⟨-, -, -, -, f5, f6, f7⟩ := parse_ok hp
  have hnil : (splitlines raw).filterMap lineSOA = [] := by
    rw [List.filterMap_eq_nil_iff]
    intro l hl
    have hreg : ¬ lineRegister l = some 'Z' := fun hcon =>
      hz l hl ((lineRegister_eq_iff l 'Z' (by decide)).mp hcon)
    unfold lineSOA
    rw [if_neg hreg]
  have hsoa : st.parsedContents.soa = none := by rw [f5, hnil]; rfl
  have hdom : st.domain = none := by rw [f6, hnil]; rfl
  have httl : st.ttl = none := by rw [f7, hnil]; rfl
  refine ⟨hdom, httl, hsoa, ?_⟩
  rw [write_soa_none hsoa]
  unfold originLine ttlLine
  rw [hdom, httl]
  rfl

/-- Witness for the amended C2 at a concrete input. -/
theorem no_soa_fails_after_headers_witness :
    stC2w.domain = none ∧ stC2w.ttl = none ∧ stC2w.parsedContents.soa = none ∧
    write stC2w = (["$ORIGIN None.", "$TTL None"], some WriteError.keyErrorSOA) :=
  no_soa_fails_after_headers rawC2w stC2w (by decide) (by rfl)

/-- Claim C6 counterexample: with two `Z` lines, the domain, ttl and SOA
fields kept for output come from the SECOND (last) `Z` line
(`Ztest.org:ns2:...`), not from the first (`Zexample.com:ns1:...`) as
the claim states. -/
theorem first_soa_authoritative_cex :
    parse rawC6 = .ok stC6 ∧
    stC6.parsedContents.soa.map SOARecord.nameserver = some "ns2" ∧
    stC6.parsedContents.soa.map SOARecord.nameserver ≠ some "ns1" ∧
    stC6.domain = some "test.org" ∧
    stC6.domain ≠ some "example.com" ∧
    stC6.ttl = some "12" ∧
    stC6.ttl ≠ some "6" :=
  ⟨by rfl, by rfl, by decide, by rfl, by decide, by rfl, by decide⟩

/-- Claim C6 amended (last SOA authoritative): with one or more `Z` lines,
each wholesale-overwrites the SOA entry together with the cached domain
and default ttl, so the values used for output are exactly those of the
LAST `Z` line. -/
theorem last_soa_authoritative (raw : String) (st : TState)
    (hp : parse raw = .ok st) :
    st.parsedContents.soa = ((splitlines raw).filterMap lineSOA).getLast? ∧
    st.domain = ((splitlines raw).filterMap lineSOA).getLast?.map SOARecord.domain ∧
    st.ttl = ((splitlines raw).filterMap lineSOA).getLast?.map soaTtl := by
  obtain ⟨-, -, -, -, f5, f6, f7⟩ := parse_ok hp
  exact ⟨f5, f6, f7⟩

/-- Witness for the amended C6 at the two-`Z`-line input. -/
theorem last_soa_authoritative_witness :
    stC6.parsedContents.soa = ((splitlines rawC6).filterMap lineSOA).getLast? ∧
    stC6.domain = ((splitlines rawC6).filterMap lineSOA).getLast?.map SOARecord.domain ∧
    stC6.ttl = ((splitlines rawC6).filterMap lineSOA).getLast?.map soaTtl :=
  last_soa_authoritative rawC6 stC6 (by rfl)

theorem lineNS_register {l : String} (h : (lineNS l).isSome) :
    lineRegister l = some '&' := by
  by_cases hr : lineRegister l = some '&'
  · exact hr
  · unfold lineNS at h
    rw [if_neg hr] at h
    exact absurd h (by simp)

theorem lineMX_register {l : String} (h : (lineMX l).isSome) :
    lineRegister l = some '@' := by
  by_cases hr : lineRegister l = some '@'
  · exact hr
  · unfold lineMX at h
    rw [if_neg hr] at h
    exact absurd h (by simp)

theorem lineA_register {l : String} (h : (lineA l).isSome) :
    lineRegister l = some '+' := by
  by_cases hr : lineRegister l = some '+'
  · exact hr
  · unfold lineA at h
    rw [if_neg hr] at h
    exact absurd h (by simp)

theorem lineCNAME_register {l : String} (h : (lineCNAME l).isSome) :
    lineRegister l = some 'C' := by
  by_cases hr : lineRegister l = some 'C'
  · exact hr
  · unfold lineCNAME at h
    rw [if_neg hr] at h
    exact absurd h (by simp)

theorem count_reg {β : Type} {ls : List String} (f : String → Option β) (c : Char)
    (hc : c ≠ ':')
    (hreg : ∀ l, (f l).isSome → lineRegister l = some c)
    (hwf : ∀ l ∈ ls, lineRegister l = some c → (f l).isSome) :
    (ls.filterMap f).length = ls.countP (fun l => decide (firstChar l = some c)) := by
  rw [List.length_filterMap_eq_countP]
  apply List.countP_congr
  intro l hl
  constructor
  · intro h
    have hr := hreg l (by simpa using h)
    rw [lineRegister_eq_iff l c hc] at hr
    simpa using hr
  · intro h
    have hfc : firstChar l = some c := by simpa using h
    simpa using hwf l hl ((lineRegister_eq_iff l c hc).mpr hfc)

/-- Claim C8 amended (round-trip record count): after a successful parse,
each record sequence has exactly as many entries as there are input
lines whose first character is the corresponding register, and — when
`write` also completes without error — the output consists of the three
header lines plus exactly one line per recognized record line of the
input; a line with an unrecognized register is silently skipped by the
parse loop (state unchanged, no error), contributing nothing. -/
theorem record_count_on_success (raw : String) (st : TState)
    (hp : parse raw = .ok st) :
    (st.parsedContents.ns.getD []).length = countReg '&' raw ∧
    (st.parsedContents.mx.getD []).length = countReg '@' raw ∧
    (st.parsedContents.a.getD []).length = countReg '+' raw ∧
    (st.parsedContents.cname.getD []).length = countReg 'C' raw ∧
    ((write st).2 = none →
      (write st).1.length =
        3 + countReg '&' raw + countReg '@' raw + countReg '+' raw + countReg 'C' raw) ∧
    (∀ (st₀ : TState) (l : String),
      lineRegister l ≠ some 'Z' → lineRegister l ≠ some '&' →
      lineRegister l ≠ some '@' → lineRegister l ≠ some '+' →
      lineRegister l ≠ some 'C' → parseLine st₀ l = .ok st₀) := by
  simp only [countReg]
  obtain ⟨f1, f2, f3, f4, -, -, -⟩ := parse_ok hp
  have hwf := parse_ok_wf hp
  have cns : (st.parsedContents.ns.getD []).length
      = (splitlines raw).countP (fun l => decide (firstChar l = some '&')) := by
    rw [f1, getD_updSeq_none]
    exact count_reg lineNS '&' (by decide) (fun l h => lineNS_register h)
      (fun l hl => (hwf l hl).2.1)
  have cmx : (st.parsedContents.mx.getD []).length
      = (splitlines raw).countP (fun l => decide (firstChar l = some '@')) := by
    rw [f2, getD_updSeq_none]
    exact count_reg lineMX '@' (by decide) (fun l h => lineMX_register h)
      (fun l hl => (hwf l hl).2.2.1)
  have ca : (st.parsedContents.a.getD []).length
      = (splitlines raw).countP (fun l => decide (firstChar l = some '+')) := by
    rw [f3, getD_updSeq_none]
    exact count_reg lineA '+' (by decide) (fun l h => lineA_register h)
      (fun l hl => (hwf l hl).2.2.2.1)
  have cc : (st.parsedContents.cname.getD []).length
      = (splitlines raw).countP (fun l => decide (firstChar l = some 'C')) := by
    rw [f4, getD_updSeq_none]
    exact count_reg lineCNAME 'C' (by decide) (fun l h => lineCNAME_register h)
      (fun l hl => (hwf l hl).2.2.2.2)
  refine ⟨cns, cmx, ca, cc, ?_, ?_⟩
  · intro hw
    cases hsoa : st.parsedContents.soa with
    | none =>
      rw [write_soa_none hsoa] at hw
      simp at hw
    | some soa =>
      cases hns : st.parsedContents.ns with
      | none =>
        rw [write_ns_none hsoa hns] at hw
        simp at hw
      | some nsl =>
        cases hmx : st.parsedContents.mx with
        | none =>
          rw [write_mx_none hsoa hns hmx] at hw
          simp at hw
        | some mxl =>
          rw [write_all_some hsoa hns hmx]
          have e1 : nsl.length = (st.parsedContents.ns.getD []).length := by
            rw [hns]
            rfl
          have e2 : mxl.length = (st.parsedContents.mx.getD []).length := by
            rw [hmx]
            rfl
          simp only [List.length_append, List.length_map, List.length_cons,
            List.length_nil]
          rw [e1, e2, cns, cmx, ca, cc]
  · intro st₀ l hZ hN hM hA hC
    unfold parseLine
    by_cases h0 : lineData l = []
    · rw [if_pos h0]
    · rw [if_neg h0, if_neg hZ, if_neg hN, if_neg hM, if_neg hA, if_neg hC]

/-- Claim C8 counterexample: the claim quantifies over every input, but on
`rawC8` (one `+` line, no `&` line) `write` aborts with the NS
`KeyError` after the three header lines, so zero A output lines are
emitted while the input contains one line with register `+` — the
emitted-line count does not equal the input count. -/
theorem record_count_cex :
    parse rawC8 = .ok stC8 ∧
    countReg '+' rawC8 = 1 ∧
    (write stC8).1 = ["$ORIGIN example.com.", "$TTL 6",
      "@      IN SOA ns1 em (1 2 3 4 6)"] ∧
    aLine ⟨some "www", "5.6.7.8"⟩ ∉ (write stC8).1 :=
  ⟨by rfl, by decide, by rfl, by decide⟩

/-- Witness for the amended C8 at a concrete input (which also contains
one unknown-register line contributing nothing). -/
theorem record_count_on_success_witness :
    (stC8w.parsedContents.a.getD []).length = countReg '+' rawC8w ∧
    (write stC8w).1.length =
      3 + countReg '&' rawC8w + countReg '@' rawC8w + countReg '+' rawC8w
        + countReg 'C' rawC8w :=
  have h := record_count_on_success rawC8w stC8w (by rfl)
  ⟨h.2.2.1, h.2.2.2.2.1 (by rfl)⟩

/-- Claim C1 (end-to-end scenario; code bug): on the spec's exact
four-line input, parsing succeeds, but since the input has no `@` (MX)
line, `write` aborts with the MX `KeyError` right after the `$ORIGIN`,
`$TTL`, SOA and NS lines: the promised A line for `www` and CNAME line
for `blog` are never emitted, so the spec's expected output is
unreachable.  (The A/CNAME sections are guarded by existence checks
while NS/MX are not — an oversight contradicting the formatter's stated
purpose of printing the bind zone file.) -/
theorem end_to_end_crashes_on_missing_mx :
    parse rawC1 = .ok stC1 ∧
    write stC1 = (["$ORIGIN example.com.", "$TTL 3600",
      "@      IN SOA ns1.example.com hostmaster.example.com (1 7200 3600 1209600 3600)",
      "\t\t\t\t\t\tIN NS ns1.example.com"], some WriteError.keyErrorMX) ∧
    aLine ⟨some "www", "5.6.7.8"⟩ ∉ (write stC1).1 ∧
    cnameLine ⟨some "blog", "www.example.com"⟩ ∉ (write stC1).1 :=
  ⟨by rfl, by rfl, by decide, by decide⟩

/-- Claim C9 (domain-derivation failure; code bug): `_getDomain` can never
return `None` — Python's `split` always returns a non-empty list, so on
the empty FQDN it returns the empty string — hence the
`SOA main domain is invalid` check (`sys.exit(2)`) is dead code: parsing
`rawC9` succeeds with the empty domain and `write` would begin its
output with `$ORIGIN .`, instead of the fatal error the spec (and the
source's own error message) intends. -/
theorem invalid_domain_check_is_dead :
    getDomain "" = some "" ∧
    parse rawC9 = .ok stC9 ∧
    stC9.domain = some "" ∧
    (write stC9).1[0]? = some "$ORIGIN ." :=
  ⟨by decide, by rfl, by rfl, by rfl⟩

end Djbdns2bind
